import Mathlib

/-!
Verification of the consumer layer of a resilient AMQP client
(`consume.go` of the go-rabbitmq fork).

The code is shallowly embedded: each broker call made on the channel is
recorded as an event in a trace, and the outcome of each call (success or
an error string) is supplied by an `AMQPChannel` record that models the
external transport library, which the spec places out of scope.  The
functions below mirror the Go functions of `consume.go` statement by
statement: early `return err` becomes sequencing with `andThen`, the
`for i := 0; i < Concurrency; i++ { go ... }` loop becomes a replicated
spawn event, the worker body becomes `processDelivery` / `workerLoop`,
and `startGoroutinesWithRetries`' unbounded `for` loop becomes the
fuelled `retryLoop` (the fuel only truncates the observation window; the
theorems require enough fuel to reach the first success).  Go's
`time.Duration` is a 64-bit signed integer count of nanoseconds and Go
multiplication wraps, so the doubling of `backoffTime` is modelled with
`wrap64`.
-/

namespace GoRabbitMQ

/-- AMQP argument table (`amqp.Table`).  Values are abstracted to strings;
no claim inspects a table beyond passing it through. -/
abbrev Table := List (String × String)

/-- Modelled from the spec: `tableToAMQPTable` lives in a marshalling
helper file that is not part of the staged sources; the spec (§1) puts
argument marshalling out of scope, so it is modelled as the identity
re-encoding of the table. -/
def tableToAMQPTable (t : Table) : Table := t

/-- `BindingExchangeOptions`: the exchange-binding descriptor.  Its fields
are the ones `consume.go` reads (`Name`, `Kind`, `Durable`, `AutoDelete`,
`Internal`, `NoWait`, `ExchangeArgs`); the struct itself is declared in an
options file not part of the staged sources. -/
structure BindingExchangeOptions where
  Name : String
  Kind : String
  Durable : Bool
  AutoDelete : Bool
  Internal : Bool
  NoWait : Bool
  ExchangeArgs : Table
deriving Repr, DecidableEq

/-- `ConsumeOptions`: the per-call consumer configuration.  The fields are
exactly the ones `consume.go` reads; the struct is declared in an options
file not part of the staged sources.  Go `int` fields become `Int`. -/
structure ConsumeOptions where
  QueueDurable : Bool
  QueueAutoDelete : Bool
  QueueExclusive : Bool
  QueueNoWait : Bool
  QueueArgs : Table
  BindingExchange : Option BindingExchangeOptions
  BindingNoWait : Bool
  BindingArgs : Table
  Concurrency : Int
  QOSPrefetch : Int
  QOSGlobal : Bool
  ConsumerName : String
  ConsumerAutoAck : Bool
  ConsumerExclusive : Bool
  ConsumerNoWait : Bool
  ConsumerNoLocal : Bool
  ConsumerArgs : Table
deriving Repr, DecidableEq

/-- Modelled from the spec: `getDefaultConsumeOptions` is defined in an
options file that is not part of the staged sources.  `consume.go` only
reads its `Concurrency` field, and the spec requires the substituted
default concurrency to be a positive integer ("if concurrency < 1,
substitute a default ≥1"); the remaining fields are inert zero values. -/
def getDefaultConsumeOptions : ConsumeOptions where
  QueueDurable := false
  QueueAutoDelete := false
  QueueExclusive := false
  QueueNoWait := false
  QueueArgs := []
  BindingExchange := none
  BindingNoWait := false
  BindingArgs := []
  Concurrency := 1
  QOSPrefetch := 0
  QOSGlobal := false
  ConsumerName := ""
  ConsumerAutoAck := false
  ConsumerExclusive := false
  ConsumerNoWait := false
  ConsumerNoLocal := false
  ConsumerArgs := []

/-- The behaviour of the transport channel (the external `amqp.Channel`):
for each broker call, the error it returns, `none` meaning success.
`queueBindErr` may depend on the routing key being bound. -/
structure AMQPChannel where
  queueDeclareErr : Option String
  exchangeDeclareErr : Option String
  queueBindErr : String → Option String
  qosErr : Option String
  consumeErr : Option String

/-- One broker call issued on the channel during a declare-and-start
cycle, with the arguments `consume.go` passes, plus the spawning of one
worker goroutine. -/
inductive BrokerEvent where
  | queueDeclare (queue : String) (durable autoDelete exclusive noWait : Bool) (args : Table)
  | exchangeDeclare (name kind : String) (durable autoDelete internal noWait : Bool) (args : Table)
  | queueBind (queue routingKey exchangeName : String) (noWait : Bool) (args : Table)
  | qos (prefetchCount prefetchSize : Int) (global : Bool)
  | consume (queue consumerName : String) (autoAck exclusive noLocal noWait : Bool) (args : Table)
  | spawnWorker
deriving Repr, DecidableEq

/-- Sequencing with Go's early-return discipline: if the first phase
returned an error its trace stands alone and the second phase never runs;
otherwise the traces concatenate and the second phase's outcome decides. -/
def andThen (a b : List BrokerEvent × Option String) : List BrokerEvent × Option String :=
  match a with
  | (evs, some e) => (evs, some e)
  | (evs, none) => (evs ++ b.1, b.2)

/-- The `QueueDeclare` call of `startGoroutines`: the call is issued (the
event is in the trace) and the channel decides its outcome. -/
def queueDeclareStep (ch : AMQPChannel) (queue : String) (o : ConsumeOptions) :
    List BrokerEvent × Option String :=
  ([BrokerEvent.queueDeclare queue o.QueueDurable o.QueueAutoDelete o.QueueExclusive
      o.QueueNoWait (tableToAMQPTable o.QueueArgs)],
   ch.queueDeclareErr)

/-- The `QueueBind` loop of `startGoroutines`: one bind call per routing
key, in order, stopping at the first key whose bind call errors. -/
def bindRoutingKeys (ch : AMQPChannel) (queue exchangeName : String) (o : ConsumeOptions) :
    List String → List BrokerEvent × Option String
  | [] => ([], none)
  | routingKey :: rest =>
    let ev := BrokerEvent.queueBind queue routingKey exchangeName o.BindingNoWait
      (tableToAMQPTable o.BindingArgs)
    match ch.queueBindErr routingKey with
    | some e => ([ev], some e)
    | none =>
      let r := bindRoutingKeys ch queue exchangeName o rest
      (ev :: r.1, r.2)

/-- The exchange block of `startGoroutines`: nothing when no
`BindingExchange` descriptor is configured; a configuration error when
its name is empty (before any exchange call is made); otherwise
`ExchangeDeclare` followed by the bind loop. -/
def bindStep (ch : AMQPChannel) (queue : String) (routingKeys : List String)
    (o : ConsumeOptions) : List BrokerEvent × Option String :=
  match o.BindingExchange with
  | none => ([], none)
  | some exchange =>
    if exchange.Name = "" then
      ([], some "binding to exchange but name not specified")
    else
      andThen
        ([BrokerEvent.exchangeDeclare exchange.Name exchange.Kind exchange.Durable
            exchange.AutoDelete exchange.Internal exchange.NoWait
            (tableToAMQPTable exchange.ExchangeArgs)],
         ch.exchangeDeclareErr)
        (bindRoutingKeys ch queue exchange.Name o routingKeys)

/-- The `Qos` call of `startGoroutines` (prefetch size is hard-coded 0). -/
def qosStep (ch : AMQPChannel) (o : ConsumeOptions) : List BrokerEvent × Option String :=
  ([BrokerEvent.qos o.QOSPrefetch 0 o.QOSGlobal], ch.qosErr)

/-- The `Consume` call of `startGoroutines`. -/
def consumeStep (ch : AMQPChannel) (queue : String) (o : ConsumeOptions) :
    List BrokerEvent × Option String :=
  ([BrokerEvent.consume queue o.ConsumerName o.ConsumerAutoAck o.ConsumerExclusive
      o.ConsumerNoLocal o.ConsumerNoWait (tableToAMQPTable o.ConsumerArgs)],
   ch.consumeErr)

/-- `startGoroutines`: one declare-and-start cycle.  Queue declare, then
the exchange/bind block, then QoS, then the consume call, and on full
success the spawning of `Concurrency` worker goroutines (the Go loop
`for i := 0; i < Concurrency; i++` runs `max Concurrency 0` times).
Returns the trace of broker calls issued and the error returned, if any. -/
def startGoroutines (ch : AMQPChannel) (queue : String) (routingKeys : List String)
    (consumeOptions : ConsumeOptions) : List BrokerEvent × Option String :=
  andThen (queueDeclareStep ch queue consumeOptions)
    (andThen (bindStep ch queue routingKeys consumeOptions)
      (andThen (qosStep ch consumeOptions)
        (andThen (consumeStep ch queue consumeOptions)
          (List.replicate consumeOptions.Concurrency.toNat BrokerEvent.spawnWorker, none))))

/-- What one worker does that is observable: invoke the handler on a
delivery, issue an `Ack` or `Nack` call for it, or log a line.  A
delivery is identified by an abstract tag. -/
inductive WorkerEvent where
  | handle (d : Nat)
  | ack (d : Nat) (multiple : Bool)
  | nack (d : Nat) (multiple requeue : Bool)
  | log (msg : String)
deriving Repr, DecidableEq

/-- The body of the worker's `for msg := range msgs` loop for one
delivery `msg`, from `startGoroutines`: with auto-ack the handler is
called and the loop continues; otherwise the handler's boolean decides
between `msg.Ack(false)` and `msg.Nack(false, true)`, and an error from
either call is only logged.  `ackErr`/`nackErr` give the outcome the
transport returns for the delivery's ack/nack call. -/
def processDelivery (autoAck : Bool) (handler : Nat → Bool)
    (ackErr nackErr : Nat → Option String) (msg : Nat) : List WorkerEvent :=
  if autoAck then
    [WorkerEvent.handle msg]
  else if handler msg then
    WorkerEvent.handle msg :: WorkerEvent.ack msg false ::
      (match ackErr msg with
       | some e => [WorkerEvent.log ("can't ack message: " ++ e)]
       | none => [])
  else
    WorkerEvent.handle msg :: WorkerEvent.nack msg false true ::
      (match nackErr msg with
       | some e => [WorkerEvent.log ("can't nack message: " ++ e)]
       | none => [])

/-- One worker goroutine of `startGoroutines`: drain the delivery stream
(given as the list of delivery tags the stream yields before closing),
process each delivery in order, and log the closing line when the stream
closes. -/
def workerLoop (autoAck : Bool) (handler : Nat → Bool)
    (ackErr nackErr : Nat → Option String) : List Nat → List WorkerEvent
  | [] => [WorkerEvent.log "rabbit consumer goroutine closed"]
  | msg :: rest =>
    processDelivery autoAck handler ackErr nackErr msg ++
      workerLoop autoAck handler ackErr nackErr rest

/-- The `Ack` calls in a worker trace: (delivery tag, multiple flag). -/
def ackCalls (evs : List WorkerEvent) : List (Nat × Bool) :=
  evs.filterMap fun ev =>
    match ev with
    | WorkerEvent.ack d m => some (d, m)
    | _ => none

/-- The `Nack` calls in a worker trace: (delivery tag, multiple flag,
requeue flag). -/
def nackCalls (evs : List WorkerEvent) : List (Nat × Bool × Bool) :=
  evs.filterMap fun ev =>
    match ev with
    | WorkerEvent.nack d m r => some (d, m, r)
    | _ => none

/-- The handler invocations in a worker trace, by delivery tag, in order. -/
def handleCalls (evs : List WorkerEvent) : List Nat :=
  evs.filterMap fun ev =>
    match ev with
    | WorkerEvent.handle d => some d
    | _ => none

/-- The `ExchangeDeclare` calls in a broker trace, by exchange name. -/
def exchangeDeclareCalls (evs : List BrokerEvent) : List String :=
  evs.filterMap fun ev =>
    match ev with
    | BrokerEvent.exchangeDeclare name _ _ _ _ _ _ => some name
    | _ => none

/-- The `QueueBind` calls in a broker trace:
(queue, routing key, exchange name), in order. -/
def bindCalls (evs : List BrokerEvent) : List (String × String × String) :=
  evs.filterMap fun ev =>
    match ev with
    | BrokerEvent.queueBind q rk ex _ _ => some (q, rk, ex)
    | _ => none

/-- How many worker goroutines a broker trace spawns. -/
def workerSpawnCount (evs : List BrokerEvent) : Nat :=
  evs.countP fun ev =>
    match ev with
    | BrokerEvent.spawnWorker => true
    | _ => false

/-- The concurrency defaulting at the top of `StartConsuming`:
`if options.Concurrency < 1 { options.Concurrency = defaultOptions.Concurrency }`. -/
def applyConcurrencyDefault (o : ConsumeOptions) : ConsumeOptions :=
  if o.Concurrency < 1 then
    { o with Concurrency := getDefaultConsumeOptions.Concurrency }
  else
    o

/-- Go `time.Second` as a `time.Duration`: 10^9 nanoseconds. -/
def oneSecondNs : Int := 1000000000

/-- Go's wrapping 64-bit signed arithmetic: the representative of `n`
modulo 2^64 in `[-2^63, 2^63)`.  `time.Duration` is an `int64` and Go
multiplication wraps around on overflow. -/
def wrap64 (n : Int) : Int := (n + 2 ^ 63) % 2 ^ 64 - 2 ^ 63

/-- What the retry loop does on one notification: sleep for the current
backoff duration (nanoseconds, as the `int64` the code holds), or run one
declare-and-start attempt with the outcome it produced. -/
inductive RetryEvent where
  | sleep (ns : Int)
  | attempt (result : Option String)
deriving Repr, DecidableEq

/-- The `for` loop of `startGoroutinesWithRetries`: sleep `backoffTime`,
double it (`int64` wrap-around), run the declare-and-start cycle; on error
`continue`, on success `break`.  `results k` is the outcome of the k-th
cycle (counted from 0); `fuel` bounds the number of iterations observed
(the Go loop itself is unbounded). -/
def retryLoop (results : Nat → Option String) (backoffTime : Int) (k fuel : Nat) :
    List RetryEvent :=
  match fuel with
  | 0 => []
  | f + 1 =>
    match results k with
    | none => [RetryEvent.sleep backoffTime, RetryEvent.attempt none]
    | some e =>
      RetryEvent.sleep backoffTime :: RetryEvent.attempt (some e) ::
        retryLoop results (wrap64 (2 * backoffTime)) (k + 1) f

/-- `startGoroutinesWithRetries`: the retry loop started with
`backoffTime := time.Second`. -/
def startGoroutinesWithRetries (results : Nat → Option String) (fuel : Nat) :
    List RetryEvent :=
  retryLoop results oneSecondNs 0 fuel

/-- The backoff value the loop holds at its i-th iteration (0-based):
`oneSecondNs` doubled i times in wrapping `int64` arithmetic.  The sleep
before retry attempt k (1-based) is `backoffAt (k - 1)`. -/
def backoffAt : Nat → Int
  | 0 => oneSecondNs
  | i + 1 => wrap64 (2 * backoffAt i)

/-- The durations slept in a retry trace, in order. -/
def sleepsOf (evs : List RetryEvent) : List Int :=
  evs.filterMap fun ev =>
    match ev with
    | RetryEvent.sleep ns => some ns
    | _ => none

/-- What `StartConsuming` produces: the trace of the first
declare-and-start cycle, the error it returns to the caller, whether the
supervisory goroutine was started, and the retry trace that goroutine
produces when the channel manager reports one loss (empty when the
goroutine was never started). -/
structure StartResult where
  firstTrace : List BrokerEvent
  err : Option String
  supervisorStarted : Bool
  supervisorTrace : List RetryEvent
deriving DecidableEq

/-- `StartConsuming`: default the concurrency, run the first
declare-and-start cycle, and return its error if it failed — the
supervisory goroutine is only started (`go func() { ... }`) after a
successful first cycle, and nothing it later does can reach the returned
value.  `chs k` is the transport behaviour the k-th declare-and-start
cycle over the consumer's lifetime observes (`chs 0` for the first cycle,
`chs (k+1)` for the supervisor's k-th retry after a loss notification);
`supervisorFuel` bounds the retry iterations observed. -/
def StartConsuming (chs : Nat → AMQPChannel) (supervisorFuel : Nat) (queue : String)
    (routingKeys : List String) (opts : ConsumeOptions) : StartResult :=
  let options := applyConcurrencyDefault opts
  match startGoroutines (chs 0) queue routingKeys options with
  | (tr, some e) => ⟨tr, some e, false, []⟩
  | (tr, none) =>
    ⟨tr, none, true,
      retryLoop (fun k => (startGoroutines (chs (k + 1)) queue routingKeys options).2)
        oneSecondNs 0 supervisorFuel⟩

/-- A transport channel on which every call succeeds. -/
def okChannel : AMQPChannel where
  queueDeclareErr := none
  exchangeDeclareErr := none
  queueBindErr := fun _ => none
  qosErr := none
  consumeErr := none

end GoRabbitMQ

namespace GoRabbitMQ

theorem andThen_of_none (a b : List BrokerEvent × Option String) (h : a.2 = none) :
    andThen a b = (a.1 ++ b.1, b.2) := by
  obtain ⟨evs, r⟩ := a
  cases r <;> simp_all [andThen]

theorem andThen_of_some (a b : List BrokerEvent × Option String) (e : String)
    (h : a.2 = some e) : andThen a b = (a.1, some e) := by
  obtain ⟨evs, r⟩ := a
  cases r <;> simp_all [andThen]

theorem andThen_snd_none_iff (a b : List BrokerEvent × Option String) :
    (andThen a b).2 = none ↔ a.2 = none ∧ b.2 = none := by
  obtain ⟨evs, r⟩ := a
  cases r <;> simp [andThen]

theorem andThen_fst_of_none (a b : List BrokerEvent × Option String) (h : a.2 = none) :
    (andThen a b).1 = a.1 ++ b.1 := by
  rw [andThen_of_none a b h]

theorem applyConcurrencyDefault_BindingExchange (o : ConsumeOptions) :
    (applyConcurrencyDefault o).BindingExchange = o.BindingExchange := by
  unfold applyConcurrencyDefault
  split <;> rfl

theorem applyConcurrencyDefault_of_pos (o : ConsumeOptions) (h : 1 ≤ o.Concurrency) :
    applyConcurrencyDefault o = o := by
  unfold applyConcurrencyDefault
  rw [if_neg (by omega)]

theorem startConsuming_eq (chs : Nat → AMQPChannel) (fuel : Nat) (q : String)
    (rks : List String) (o : ConsumeOptions) :
    StartConsuming chs fuel q rks o =
      match startGoroutines (chs 0) q rks (applyConcurrencyDefault o) with
      | (tr, some e) => ⟨tr, some e, false, []⟩
      | (tr, none) =>
        ⟨tr, none, true,
          retryLoop (fun k => (startGoroutines (chs (k + 1)) q rks (applyConcurrencyDefault o)).2)
            oneSecondNs 0 fuel⟩ := rfl

theorem startConsuming_err (chs : Nat → AMQPChannel) (fuel : Nat) (q : String)
    (rks : List String) (o : ConsumeOptions) :
    (StartConsuming chs fuel q rks o).err =
      (startGoroutines (chs 0) q rks (applyConcurrencyDefault o)).2 := by
  rw [startConsuming_eq]
  rcases h : startGoroutines (chs 0) q rks (applyConcurrencyDefault o) with ⟨tr, r⟩
  cases r <;> rfl

theorem startConsuming_firstTrace (chs : Nat → AMQPChannel) (fuel : Nat) (q : String)
    (rks : List String) (o : ConsumeOptions) :
    (StartConsuming chs fuel q rks o).firstTrace =
      (startGoroutines (chs 0) q rks (applyConcurrencyDefault o)).1 := by
  rw [startConsuming_eq]
  rcases h : startGoroutines (chs 0) q rks (applyConcurrencyDefault o) with ⟨tr, r⟩
  cases r <;> rfl

theorem startConsuming_supervisorStarted (chs : Nat → AMQPChannel) (fuel : Nat) (q : String)
    (rks : List String) (o : ConsumeOptions) :
    (StartConsuming chs fuel q rks o).supervisorStarted =
      (startGoroutines (chs 0) q rks (applyConcurrencyDefault o)).2.isNone := by
  rw [startConsuming_eq]
  rcases h : startGoroutines (chs 0) q rks (applyConcurrencyDefault o) with ⟨tr, r⟩
  cases r <;> rfl

end GoRabbitMQ

namespace GoRabbitMQ

theorem handleCalls_processDelivery (autoAck : Bool) (handler : Nat → Bool)
    (ackErr nackErr : Nat → Option String) (m : Nat) :
    handleCalls (processDelivery autoAck handler ackErr nackErr m) = [m] := by
  cases autoAck
  · by_cases hm : handler m <;> simp [processDelivery, hm, handleCalls]
    · cases ackErr m <;> simp
    · cases nackErr m <;> simp
  · simp [processDelivery, handleCalls]

theorem handleCalls_append (l1 l2 : List WorkerEvent) :
    handleCalls (l1 ++ l2) = handleCalls l1 ++ handleCalls l2 := by
  simp [handleCalls]

theorem workerLoop_eq_flatMap (autoAck : Bool) (handler : Nat → Bool)
    (ackErr nackErr : Nat → Option String) (ds : List Nat) :
    workerLoop autoAck handler ackErr nackErr ds =
      ds.flatMap (processDelivery autoAck handler ackErr nackErr) ++
        [WorkerEvent.log "rabbit consumer goroutine closed"] := by
  induction ds with
  | nil => simp [workerLoop]
  | cons m rest ih => simp [workerLoop, ih]

/-- C1.  For every delivery a worker processes with auto-ack off: the
worker trace is the per-delivery dispositions in stream order, and for a
single delivery, a handler returning true produces exactly one `Ack` call
(non-multiple) and no `Nack` call, while a handler returning false
produces exactly one `Nack` call (non-multiple, requeue) and no `Ack`
call — no delivery gets both. -/
theorem worker_disposition_exactly_once (handler : Nat → Bool)
    (ackErr nackErr : Nat → Option String) (ds : List Nat) (d : Nat) :
    workerLoop false handler ackErr nackErr ds =
      ds.flatMap (processDelivery false handler ackErr nackErr) ++
        [WorkerEvent.log "rabbit consumer goroutine closed"]
    ∧ ackCalls (processDelivery false handler ackErr nackErr d) =
        (if handler d then [(d, false)] else [])
    ∧ nackCalls (processDelivery false handler ackErr nackErr d) =
        (if handler d then [] else [(d, false, true)]) := by
  refine ⟨workerLoop_eq_flatMap false handler ackErr nackErr ds, ?_, ?_⟩
  · by_cases hd : handler d <;> simp [processDelivery, hd, ackCalls]
    · cases ackErr d <;> simp
    · cases nackErr d <;> simp
  · by_cases hd : handler d <;> simp [processDelivery, hd, nackCalls]
    · cases ackErr d <;> simp
    · cases nackErr d <;> simp

/-- C7.  With auto-ack on, processing a delivery invokes the handler
exactly once and does nothing else: the trace is the single handler
invocation whatever boolean the handler returns (so the result has no
effect), and no `Ack` or `Nack` call is issued. -/
theorem autoack_handler_only (handler handler2 : Nat → Bool)
    (ackErr nackErr : Nat → Option String) (d : Nat) :
    processDelivery true handler ackErr nackErr d = [WorkerEvent.handle d]
    ∧ processDelivery true handler ackErr nackErr d =
        processDelivery true handler2 ackErr nackErr d
    ∧ handleCalls (processDelivery true handler ackErr nackErr d) = [d]
    ∧ ackCalls (processDelivery true handler ackErr nackErr d) = []
    ∧ nackCalls (processDelivery true handler ackErr nackErr d) = [] := by
  refine ⟨rfl, rfl, ?_, ?_, ?_⟩ <;> simp [processDelivery, handleCalls, ackCalls, nackCalls]

/-- C8.  Ack/nack failures never stop a worker: whatever errors the
transport returns for ack and nack calls, the worker still invokes the
handler on every delivery of the stream, in order; a failing `Ack` or
`Nack` call only adds a log line to the delivery's trace.  The worker
returns no error to anyone — `workerLoop` produces only a trace. -/
theorem ack_nack_errors_only_logged (handler : Nat → Bool)
    (ackErr nackErr : Nat → Option String) (ds : List Nat) :
    handleCalls (workerLoop false handler ackErr nackErr ds) = ds
    ∧ (∀ d e, handler d = true → ackErr d = some e →
        WorkerEvent.log ("can't ack message: " ++ e) ∈
          processDelivery false handler ackErr nackErr d)
    ∧ (∀ d e, handler d = false → nackErr d = some e →
        WorkerEvent.log ("can't nack message: " ++ e) ∈
          processDelivery false handler ackErr nackErr d) := by
  refine ⟨?_, ?_, ?_⟩
  · induction ds with
    | nil => simp [workerLoop, handleCalls]
    | cons m rest ih =>
      simp only [workerLoop]
      rw [handleCalls_append, handleCalls_processDelivery, ih]
      rfl
  · intro d e hd he
    simp [processDelivery, hd, he]
  · intro d e hd he
    simp [processDelivery, hd, he]

/-- C8 witness: with a handler accepting delivery 0 and rejecting
delivery 1, and a transport failing every ack with "a" and every nack
with "b", both failures appear as log lines in the respective delivery's
trace. -/
theorem ack_nack_errors_only_logged_witness :
    WorkerEvent.log ("can't ack message: " ++ "a") ∈
      processDelivery false (fun d => d == 0) (fun _ => some "a") (fun _ => some "b") 0
    ∧ WorkerEvent.log ("can't nack message: " ++ "b") ∈
      processDelivery false (fun d => d == 0) (fun _ => some "a") (fun _ => some "b") 1 :=
  ⟨(ack_nack_errors_only_logged (fun d => d == 0) (fun _ => some "a") (fun _ => some "b")
      []).2.1 0 "a" rfl rfl,
   (ack_nack_errors_only_logged (fun d => d == 0) (fun _ => some "a") (fun _ => some "b")
      []).2.2 1 "b" rfl rfl⟩

end GoRabbitMQ

namespace GoRabbitMQ

theorem workerSpawnCount_append (l1 l2 : List BrokerEvent) :
    workerSpawnCount (l1 ++ l2) = workerSpawnCount l1 + workerSpawnCount l2 := by
  simp [workerSpawnCount, List.countP_append]

theorem workerSpawnCount_replicate (n : Nat) :
    workerSpawnCount (List.replicate n BrokerEvent.spawnWorker) = n := by
  simp [workerSpawnCount, List.countP_replicate]

theorem workerSpawnCount_bindRoutingKeys (ch : AMQPChannel) (q exn : String)
    (o : ConsumeOptions) (rks : List String) :
    workerSpawnCount (bindRoutingKeys ch q exn o rks).1 = 0 := by
  induction rks with
  | nil => rfl
  | cons rk rest ih =>
    simp only [bindRoutingKeys]
    cases ch.queueBindErr rk
    · simpa [workerSpawnCount, List.countP_cons] using ih
    · rfl

theorem workerSpawnCount_bindStep (ch : AMQPChannel) (q : String) (rks : List String)
    (o : ConsumeOptions) :
    workerSpawnCount (bindStep ch q rks o).1 = 0 := by
  unfold bindStep
  rcases o.BindingExchange with _ | ex
  · rfl
  · simp only
    split
    · rfl
    · cases h : ch.exchangeDeclareErr with
      | none =>
        rw [andThen_fst_of_none _ _ rfl, workerSpawnCount_append,
          workerSpawnCount_bindRoutingKeys]
        rfl
      | some e =>
        rw [andThen_of_some _ _ e rfl]
        rfl

theorem workerSpawnCount_startGoroutines (ch : AMQPChannel) (q : String)
    (rks : List String) (o : ConsumeOptions)
    (h : (startGoroutines ch q rks o).2 = none) :
    workerSpawnCount (startGoroutines ch q rks o).1 = o.Concurrency.toNat := by
  unfold startGoroutines at h ⊢
  obtain ⟨h1, h'⟩ := (andThen_snd_none_iff _ _).mp h
  obtain ⟨h2, h''⟩ := (andThen_snd_none_iff _ _).mp h'
  obtain ⟨h3, h'''⟩ := (andThen_snd_none_iff _ _).mp h''
  obtain ⟨h4, _⟩ := (andThen_snd_none_iff _ _).mp h'''
  rw [andThen_fst_of_none _ _ h1, workerSpawnCount_append,
    andThen_fst_of_none _ _ h2, workerSpawnCount_append,
    andThen_fst_of_none _ _ h3, workerSpawnCount_append,
    andThen_fst_of_none _ _ h4, workerSpawnCount_append,
    workerSpawnCount_bindStep, workerSpawnCount_replicate]
  simp [queueDeclareStep, qosStep, consumeStep, workerSpawnCount]

/-- C2.  The error `StartConsuming` returns is exactly the first
declare-and-start cycle's outcome; the supervisory goroutine is started
if and only if that first cycle succeeds; and the returned error depends
only on the transport behaviour the first cycle sees — the outcomes of
all later cycles (run inside the supervisor's backoff loop) never reach
the caller. -/
theorem first_cycle_error_only (chs : Nat → AMQPChannel) (fuel : Nat) (q : String)
    (rks : List String) (o : ConsumeOptions) :
    (StartConsuming chs fuel q rks o).err =
        (startGoroutines (chs 0) q rks (applyConcurrencyDefault o)).2
    ∧ ((StartConsuming chs fuel q rks o).supervisorStarted = true ↔
        (startGoroutines (chs 0) q rks (applyConcurrencyDefault o)).2 = none)
    ∧ (∀ (chs2 : Nat → AMQPChannel) (fuel2 : Nat), chs2 0 = chs 0 →
        (StartConsuming chs2 fuel2 q rks o).err = (StartConsuming chs fuel q rks o).err) := by
  refine ⟨startConsuming_err chs fuel q rks o, ?_, ?_⟩
  · rw [startConsuming_supervisorStarted]
    cases h : (startGoroutines (chs 0) q rks (applyConcurrencyDefault o)).2 <;> simp
  · intro chs2 fuel2 h0
    rw [startConsuming_err, startConsuming_err, h0]

/-- C2 witness: two consumers whose first cycle sees the same all-success
transport return the same error (namely none) regardless of everything
later. -/
theorem first_cycle_error_only_witness :
    (StartConsuming (fun _ => okChannel) 7 "q" ["k"] getDefaultConsumeOptions).err =
      (StartConsuming (fun _ => okChannel) 0 "q" ["k"] getDefaultConsumeOptions).err :=
  (first_cycle_error_only (fun _ => okChannel) 0 "q" ["k"] getDefaultConsumeOptions).2.2
    (fun _ => okChannel) 7 rfl

/-- C5.  A successful `StartConsuming` call with configured concurrency
N ≥ 1 spawns exactly N worker goroutines in its first declare-and-start
cycle; and a configured concurrency below 1 is replaced by the default
concurrency, which is at least 1. -/
theorem spawns_concurrency_workers (chs : Nat → AMQPChannel) (fuel : Nat) (q : String)
    (rks : List String) (o : ConsumeOptions) :
    (1 ≤ o.Concurrency → (StartConsuming chs fuel q rks o).err = none →
      (workerSpawnCount (StartConsuming chs fuel q rks o).firstTrace : Int) = o.Concurrency)
    ∧ (o.Concurrency < 1 →
        applyConcurrencyDefault o = { o with Concurrency := getDefaultConsumeOptions.Concurrency }
        ∧ 1 ≤ getDefaultConsumeOptions.Concurrency) := by
  constructor
  · intro h1 h2
    rw [startConsuming_err, applyConcurrencyDefault_of_pos o h1] at h2
    rw [startConsuming_firstTrace, applyConcurrencyDefault_of_pos o h1,
      workerSpawnCount_startGoroutines (chs 0) q rks o h2]
    omega
  · intro h1
    exact ⟨by unfold applyConcurrencyDefault; rw [if_pos h1], by norm_num [getDefaultConsumeOptions]⟩

/-- C5 witness: with concurrency 3 on an all-success transport, exactly 3
workers are spawned; with concurrency 0, the default (1) is substituted. -/
theorem spawns_concurrency_workers_witness :
    (workerSpawnCount (StartConsuming (fun _ => okChannel) 0 "q" []
        { getDefaultConsumeOptions with Concurrency := 3 }).firstTrace : Int) =
      ({ getDefaultConsumeOptions with Concurrency := 3 } : ConsumeOptions).Concurrency
    ∧ (applyConcurrencyDefault { getDefaultConsumeOptions with Concurrency := 0 } =
        { ({ getDefaultConsumeOptions with Concurrency := 0 } : ConsumeOptions) with
            Concurrency := getDefaultConsumeOptions.Concurrency }
        ∧ 1 ≤ getDefaultConsumeOptions.Concurrency) :=
  ⟨(spawns_concurrency_workers (fun _ => okChannel) 0 "q" []
      { getDefaultConsumeOptions with Concurrency := 3 }).1 (by norm_num) rfl,
   (spawns_concurrency_workers (fun _ => okChannel) 0 "q" []
      { getDefaultConsumeOptions with Concurrency := 0 }).2 (by norm_num)⟩

end GoRabbitMQ

namespace GoRabbitMQ

theorem filterMap_replicate_none {α β : Type} (f : α → Option β) (a : α)
    (h : f a = none) (n : Nat) : (List.replicate n a).filterMap f = [] := by
  induction n with
  | zero => rfl
  | succ n ih => simp [List.replicate_succ, List.filterMap_cons, h, ih]

theorem bindStep_emptyName (ch : AMQPChannel) (q : String) (rks : List String)
    (o : ConsumeOptions) (ex : BindingExchangeOptions)
    (h2 : o.BindingExchange = some ex) (h3 : ex.Name = "") :
    bindStep ch q rks o = ([], some "binding to exchange but name not specified") := by
  unfold bindStep
  rw [h2]
  simp [h3]

theorem startGoroutines_emptyName (ch : AMQPChannel) (q : String) (rks : List String)
    (o : ConsumeOptions) (ex : BindingExchangeOptions) (h1 : ch.queueDeclareErr = none)
    (h2 : o.BindingExchange = some ex) (h3 : ex.Name = "") :
    startGoroutines ch q rks o =
      ([BrokerEvent.queueDeclare q o.QueueDurable o.QueueAutoDelete o.QueueExclusive
          o.QueueNoWait (tableToAMQPTable o.QueueArgs)],
       some "binding to exchange but name not specified") := by
  unfold startGoroutines
  rw [andThen_of_none _ _ (show (queueDeclareStep ch q o).2 = none from h1),
    bindStep_emptyName ch q rks o ex h2 h3,
    andThen_of_some ([], some "binding to exchange but name not specified") _
      "binding to exchange but name not specified" rfl]
  rfl

/-- C4.  With a binding descriptor whose exchange name is empty (and a
queue declare the broker accepts), the declare-and-start cycle fails with
the configuration error, and the first `StartConsuming` call returns that
very error to the caller (and starts no supervisory goroutine). -/
theorem empty_exchange_name_surfaces_error (ch : AMQPChannel) (q : String)
    (rks : List String) (o : ConsumeOptions) (ex : BindingExchangeOptions)
    (h1 : ch.queueDeclareErr = none) (h2 : o.BindingExchange = some ex)
    (h3 : ex.Name = "") :
    (startGoroutines ch q rks o).2 = some "binding to exchange but name not specified"
    ∧ ∀ (chs : Nat → AMQPChannel) (fuel : Nat), chs 0 = ch →
        (StartConsuming chs fuel q rks o).err =
          some "binding to exchange but name not specified"
        ∧ (StartConsuming chs fuel q rks o).supervisorStarted = false := by
  have hmain : ∀ ch2 : AMQPChannel, ch2.queueDeclareErr = none →
      (startGoroutines ch2 q rks (applyConcurrencyDefault o)).2 =
        some "binding to exchange but name not specified" := by
    intro ch2 h
    rw [startGoroutines_emptyName ch2 q rks (applyConcurrencyDefault o) ex h
      (by rw [applyConcurrencyDefault_BindingExchange, h2]) h3]
  constructor
  · rw [startGoroutines_emptyName ch q rks o ex h1 h2 h3]
  · intro chs fuel h0
    constructor
    · rw [startConsuming_err]
      exact hmain (chs 0) (by rw [h0, h1])
    · rw [startConsuming_supervisorStarted, hmain (chs 0) (by rw [h0, h1])]
      rfl

/-- C4 witness: a concrete descriptor with an empty name on an otherwise
all-success transport. -/
theorem empty_exchange_name_surfaces_error_witness :
    (startGoroutines okChannel "q" ["k"]
        { getDefaultConsumeOptions with
            BindingExchange := some ⟨"", "", false, false, false, false, []⟩ }).2 =
      some "binding to exchange but name not specified"
    ∧ ∀ (chs : Nat → AMQPChannel) (fuel : Nat), chs 0 = okChannel →
        (StartConsuming chs fuel "q" ["k"]
            { getDefaultConsumeOptions with
                BindingExchange := some ⟨"", "", false, false, false, false, []⟩ }).err =
          some "binding to exchange but name not specified"
        ∧ (StartConsuming chs fuel "q" ["k"]
            { getDefaultConsumeOptions with
                BindingExchange := some ⟨"", "", false, false, false, false, []⟩ }).supervisorStarted =
          false :=
  empty_exchange_name_surfaces_error okChannel "q" ["k"]
    { getDefaultConsumeOptions with
        BindingExchange := some ⟨"", "", false, false, false, false, []⟩ }
    ⟨"", "", false, false, false, false, []⟩ rfl rfl rfl

/-- C10.  The declare-and-start cycle is not atomic on the empty-name
configuration error: the cycle's trace shows the queue-declare call was
already issued on the broker when the error is returned — the name check
comes only after `QueueDeclare`. -/
theorem queue_declared_before_name_check (ch : AMQPChannel) (q : String)
    (rks : List String) (o : ConsumeOptions) (ex : BindingExchangeOptions)
    (h1 : ch.queueDeclareErr = none) (h2 : o.BindingExchange = some ex)
    (h3 : ex.Name = "") :
    startGoroutines ch q rks o =
      ([BrokerEvent.queueDeclare q o.QueueDurable o.QueueAutoDelete o.QueueExclusive
          o.QueueNoWait (tableToAMQPTable o.QueueArgs)],
       some "binding to exchange but name not specified") :=
  startGoroutines_emptyName ch q rks o ex h1 h2 h3

/-- C10 witness: on a concrete all-success transport the cycle's whole
observable behaviour is one queue-declare call followed by the
configuration error. -/
theorem queue_declared_before_name_check_witness :
    startGoroutines okChannel "jobs" []
        { getDefaultConsumeOptions with
            BindingExchange := some ⟨"", "fanout", false, false, false, false, []⟩ } =
      ([BrokerEvent.queueDeclare "jobs" false false false false (tableToAMQPTable [])],
       some "binding to exchange but name not specified") :=
  queue_declared_before_name_check okChannel "jobs" []
    { getDefaultConsumeOptions with
        BindingExchange := some ⟨"", "fanout", false, false, false, false, []⟩ }
    ⟨"", "fanout", false, false, false, false, []⟩ rfl rfl rfl

end GoRabbitMQ

namespace GoRabbitMQ

theorem bindRoutingKeys_ok (ch : AMQPChannel) (q exn : String) (o : ConsumeOptions)
    (h : ∀ rk, ch.queueBindErr rk = none) (rks : List String) :
    bindRoutingKeys ch q exn o rks =
      (rks.map fun rk =>
        BrokerEvent.queueBind q rk exn o.BindingNoWait (tableToAMQPTable o.BindingArgs),
       none) := by
  induction rks with
  | nil => rfl
  | cons rk rest ih => simp [bindRoutingKeys, h rk, ih]

theorem bindStep_ok (ch : AMQPChannel) (q : String) (rks : List String)
    (o : ConsumeOptions) (ex : BindingExchangeOptions)
    (h2 : ch.exchangeDeclareErr = none) (h3 : ∀ rk, ch.queueBindErr rk = none)
    (h6 : o.BindingExchange = some ex) (h7 : ex.Name ≠ "") :
    bindStep ch q rks o =
      (BrokerEvent.exchangeDeclare ex.Name ex.Kind ex.Durable ex.AutoDelete ex.Internal
          ex.NoWait (tableToAMQPTable ex.ExchangeArgs) ::
        (rks.map fun rk =>
          BrokerEvent.queueBind q rk ex.Name o.BindingNoWait (tableToAMQPTable o.BindingArgs)),
       none) := by
  unfold bindStep
  rw [h6]
  simp only [if_neg h7]
  rw [h2, andThen_of_none _ _ rfl, bindRoutingKeys_ok ch q ex.Name o h3 rks]
  rfl

theorem bindCalls_append (l1 l2 : List BrokerEvent) :
    bindCalls (l1 ++ l2) = bindCalls l1 ++ bindCalls l2 := by
  simp [bindCalls]

theorem bindCalls_map_queueBind (q exn : String) (nw : Bool) (args : Table)
    (l : List String) :
    bindCalls (l.map fun rk => BrokerEvent.queueBind q rk exn nw args) =
      l.map fun rk => (q, rk, exn) := by
  induction l with
  | nil => rfl
  | cons a l ih =>
    simp only [bindCalls, List.filterMap_cons] at ih ⊢
    simp [ih]

theorem bindCalls_replicate_spawn (n : Nat) :
    bindCalls (List.replicate n BrokerEvent.spawnWorker) = [] := by
  induction n with
  | zero => rfl
  | succ n ih =>
    simp only [bindCalls, List.replicate_succ, List.filterMap_cons] at ih ⊢
    exact ih

/-- C6.  On a successful declare-and-start cycle with a configured
exchange descriptor (non-empty name), the cycle's trace is exactly: the
queue declare, the exchange declare, then one queue-bind call per routing
key — binding the queue to the configured exchange with that key, in the
order the keys appear — then QoS, the consume call and the worker
spawns; the bind calls of the trace are precisely the given keys in
order. -/
theorem binds_each_routing_key_in_order (ch : AMQPChannel) (q : String)
    (rks : List String) (o : ConsumeOptions) (ex : BindingExchangeOptions)
    (h1 : ch.queueDeclareErr = none) (h2 : ch.exchangeDeclareErr = none)
    (h3 : ∀ rk, ch.queueBindErr rk = none) (h4 : ch.qosErr = none)
    (h5 : ch.consumeErr = none) (h6 : o.BindingExchange = some ex)
    (h7 : ex.Name ≠ "") :
    startGoroutines ch q rks o =
      (BrokerEvent.queueDeclare q o.QueueDurable o.QueueAutoDelete o.QueueExclusive
          o.QueueNoWait (tableToAMQPTable o.QueueArgs) ::
        BrokerEvent.exchangeDeclare ex.Name ex.Kind ex.Durable ex.AutoDelete ex.Internal
          ex.NoWait (tableToAMQPTable ex.ExchangeArgs) ::
        ((rks.map fun rk =>
            BrokerEvent.queueBind q rk ex.Name o.BindingNoWait (tableToAMQPTable o.BindingArgs)) ++
          ([BrokerEvent.qos o.QOSPrefetch 0 o.QOSGlobal,
            BrokerEvent.consume q o.ConsumerName o.ConsumerAutoAck o.ConsumerExclusive
              o.ConsumerNoLocal o.ConsumerNoWait (tableToAMQPTable o.ConsumerArgs)] ++
            List.replicate o.Concurrency.toNat BrokerEvent.spawnWorker)),
       none)
    ∧ bindCalls (startGoroutines ch q rks o).1 = rks.map fun rk => (q, rk, ex.Name) := by
  have htrace : startGoroutines ch q rks o =
      (BrokerEvent.queueDeclare q o.QueueDurable o.QueueAutoDelete o.QueueExclusive
          o.QueueNoWait (tableToAMQPTable o.QueueArgs) ::
        BrokerEvent.exchangeDeclare ex.Name ex.Kind ex.Durable ex.AutoDelete ex.Internal
          ex.NoWait (tableToAMQPTable ex.ExchangeArgs) ::
        ((rks.map fun rk =>
            BrokerEvent.queueBind q rk ex.Name o.BindingNoWait (tableToAMQPTable o.BindingArgs)) ++
          ([BrokerEvent.qos o.QOSPrefetch 0 o.QOSGlobal,
            BrokerEvent.consume q o.ConsumerName o.ConsumerAutoAck o.ConsumerExclusive
              o.ConsumerNoLocal o.ConsumerNoWait (tableToAMQPTable o.ConsumerArgs)] ++
            List.replicate o.Concurrency.toNat BrokerEvent.spawnWorker)),
       none) := by
    unfold startGoroutines
    rw [andThen_of_none _ _ (show (queueDeclareStep ch q o).2 = none from h1),
      bindStep_ok ch q rks o ex h2 h3 h6 h7, andThen_of_none _ _ rfl,
      andThen_of_none _ _ (show (qosStep ch o).2 = none from h4),
      andThen_of_none _ _ (show (consumeStep ch q o).2 = none from h5)]
    simp [queueDeclareStep, qosStep, consumeStep]
  refine ⟨htrace, ?_⟩
  rw [htrace]
  show bindCalls
      ([BrokerEvent.queueDeclare q o.QueueDurable o.QueueAutoDelete o.QueueExclusive
          o.QueueNoWait (tableToAMQPTable o.QueueArgs),
        BrokerEvent.exchangeDeclare ex.Name ex.Kind ex.Durable ex.AutoDelete ex.Internal
          ex.NoWait (tableToAMQPTable ex.ExchangeArgs)] ++
        ((rks.map fun rk =>
            BrokerEvent.queueBind q rk ex.Name o.BindingNoWait (tableToAMQPTable o.BindingArgs)) ++
          ([BrokerEvent.qos o.QOSPrefetch 0 o.QOSGlobal,
            BrokerEvent.consume q o.ConsumerName o.ConsumerAutoAck o.ConsumerExclusive
              o.ConsumerNoLocal o.ConsumerNoWait (tableToAMQPTable o.ConsumerArgs)] ++
            List.replicate o.Concurrency.toNat BrokerEvent.spawnWorker))) = _
  rw [bindCalls_append, bindCalls_append, bindCalls_append, bindCalls_map_queueBind,
    bindCalls_replicate_spawn]
  simp [bindCalls]

/-- C6 witness: two routing keys on an all-success transport produce
exactly the two bind calls, in order, after the exchange declare. -/
theorem binds_each_routing_key_in_order_witness :
    startGoroutines okChannel "q" ["a", "b"]
        { getDefaultConsumeOptions with
            BindingExchange := some ⟨"events", "direct", true, false, false, false, []⟩ } =
      (BrokerEvent.queueDeclare "q" false false false false (tableToAMQPTable []) ::
        BrokerEvent.exchangeDeclare "events" "direct" true false false false
          (tableToAMQPTable []) ::
        ((["a", "b"].map fun rk =>
            BrokerEvent.queueBind "q" rk "events" false (tableToAMQPTable [])) ++
          ([BrokerEvent.qos 0 0 false,
            BrokerEvent.consume "q" "" false false false false (tableToAMQPTable [])] ++
            List.replicate (Int.toNat 1) BrokerEvent.spawnWorker)),
       none)
    ∧ bindCalls (startGoroutines okChannel "q" ["a", "b"]
        { getDefaultConsumeOptions with
            BindingExchange := some ⟨"events", "direct", true, false, false, false, []⟩ }).1 =
      ["a", "b"].map fun rk => ("q", rk, "events") :=
  binds_each_routing_key_in_order okChannel "q" ["a", "b"]
    { getDefaultConsumeOptions with
        BindingExchange := some ⟨"events", "direct", true, false, false, false, []⟩ }
    ⟨"events", "direct", true, false, false, false, []⟩
    rfl rfl (fun _ => rfl) rfl rfl rfl (by decide)

/-- C9.  With no exchange descriptor configured, the routing keys are
ignored entirely: the declare-and-start cycle's behaviour is the same for
every routing-key list, and its trace contains no exchange-declare and no
queue-bind call. -/
theorem nil_binding_ignores_routing_keys (ch : AMQPChannel) (q : String)
    (rks rks2 : List String) (o : ConsumeOptions) (h : o.BindingExchange = none) :
    startGoroutines ch q rks o = startGoroutines ch q rks2 o
    ∧ exchangeDeclareCalls (startGoroutines ch q rks o).1 = []
    ∧ bindCalls (startGoroutines ch q rks o).1 = [] := by
  have hbs : ∀ rks3 : List String, bindStep ch q rks3 o = ([], none) := by
    intro rks3
    unfold bindStep
    rw [h]
  refine ⟨?_, ?_, ?_⟩
  · unfold startGoroutines
    rw [hbs rks, hbs rks2]
  · unfold startGoroutines
    rw [hbs rks]
    cases hq : ch.queueDeclareErr <;> cases hs : ch.qosErr <;> cases hc : ch.consumeErr <;>
      simp [andThen, queueDeclareStep, qosStep, consumeStep, exchangeDeclareCalls,
        hq, hs, hc, List.filterMap_append, List.filterMap_cons, filterMap_replicate_none]
  · unfold startGoroutines
    rw [hbs rks]
    cases hq : ch.queueDeclareErr <;> cases hs : ch.qosErr <;> cases hc : ch.consumeErr <;>
      simp [andThen, queueDeclareStep, qosStep, consumeStep, bindCalls,
        hq, hs, hc, List.filterMap_append, List.filterMap_cons, filterMap_replicate_none]

/-- C9 witness: a non-empty routing-key list and the empty one give the
same cycle on a concrete all-success transport with no descriptor. -/
theorem nil_binding_ignores_routing_keys_witness :
    startGoroutines okChannel "q" ["k1", "k2"] getDefaultConsumeOptions =
      startGoroutines okChannel "q" [] getDefaultConsumeOptions
    ∧ exchangeDeclareCalls (startGoroutines okChannel "q" ["k1", "k2"]
        getDefaultConsumeOptions).1 = []
    ∧ bindCalls (startGoroutines okChannel "q" ["k1", "k2"]
        getDefaultConsumeOptions).1 = [] :=
  nil_binding_ignores_routing_keys okChannel "q" ["k1", "k2"] [] getDefaultConsumeOptions rfl

end GoRabbitMQ

namespace GoRabbitMQ

theorem wrap64_eq_self (x : Int) (h1 : -(2 ^ 63) ≤ x) (h2 : x < 2 ^ 63) :
    wrap64 x = x := by
  unfold wrap64
  omega

/-- The backoff sequence started from an arbitrary `int64` value `b`:
`backoffFrom b i` is `b` doubled `i` times in wrapping arithmetic. -/
def backoffFrom (b : Int) : Nat → Int
  | 0 => b
  | i + 1 => wrap64 (2 * backoffFrom b i)

theorem backoffFrom_zero (b : Int) : backoffFrom b 0 = b := rfl

theorem backoffFrom_shift (b : Int) (i : Nat) :
    backoffFrom (wrap64 (2 * b)) i = backoffFrom b (i + 1) := by
  induction i with
  | zero => rfl
  | succ i ih =>
    simp only [backoffFrom]
    rw [ih]
    rfl

theorem backoffAt_eq (i : Nat) : backoffAt i = backoffFrom oneSecondNs i := by
  induction i with
  | zero => rfl
  | succ i ih =>
    simp only [backoffAt, backoffFrom]
    rw [ih]

/-- The retry loop, run from attempt `k` with current backoff `b`, when
attempt `k + n` (0-based) is the first success from `k` on and the fuel
covers it: one sleep-and-attempt block per attempt, the backoff doubling
(with `int64` wrap-around) from block to block, ending at the first
successful attempt. -/
theorem retryLoop_spec (results : Nat → Option String) :
    ∀ (n k : Nat) (b : Int) (fuel : Nat),
      (∀ j, j < n → results (k + j) ≠ none) → results (k + n) = none → n + 1 ≤ fuel →
      retryLoop results b k fuel =
        (List.range (n + 1)).flatMap fun i =>
          [RetryEvent.sleep (backoffFrom b i), RetryEvent.attempt (results (k + i))] := by
  intro n
  induction n with
  | zero =>
    intro k b fuel hlt hnone hfuel
    match fuel, hfuel with
    | f + 1, _ =>
      rw [Nat.add_zero] at hnone
      simp [retryLoop, hnone, show List.range 1 = [0] from rfl, List.flatMap_cons,
        backoffFrom_zero]
  | succ n ih =>
    intro k b fuel hlt hnone hfuel
    obtain ⟨e, he⟩ : ∃ e, results k = some e := by
      cases hr : results k with
      | none => exact absurd hr (by simpa using hlt 0 (Nat.succ_pos n))
      | some e => exact ⟨e, rfl⟩
    match fuel, hfuel with
    | f + 1, hf =>
      have hrec := ih (k + 1) (wrap64 (2 * b)) f
        (fun j hj => by
          have h := hlt (j + 1) (by omega)
          rw [show k + (j + 1) = k + 1 + j from by omega] at h
          exact h)
        (by
          rw [show k + 1 + n = k + (n + 1) from by omega]
          exact hnone)
        (by omega)
      have hfun : (fun i => [RetryEvent.sleep (backoffFrom (wrap64 (2 * b)) i),
            RetryEvent.attempt (results (k + 1 + i))]) =
          fun i => [RetryEvent.sleep (backoffFrom b (i + 1)),
            RetryEvent.attempt (results (k + (i + 1)))] := by
        funext i
        rw [backoffFrom_shift, show k + 1 + i = k + (i + 1) from by omega]
      simp only [retryLoop, he]
      rw [List.range_succ_eq_map, hrec, hfun]
      simp only [List.flatMap_cons, List.flatMap_map, Nat.succ_eq_add_one,
        backoffFrom_zero, Nat.add_zero, he, List.cons_append, List.nil_append]

end GoRabbitMQ

namespace GoRabbitMQ

theorem backoffAt_pow : ∀ i : Nat, i ≤ 33 → backoffAt i = oneSecondNs * 2 ^ i := by
  intro i
  induction i with
  | zero => intro _; simp [backoffAt, oneSecondNs]
  | succ i ih =>
    intro h
    have hi := ih (by omega)
    rw [show backoffAt (i + 1) = wrap64 (2 * backoffAt i) from rfl, hi,
      show (2 : Int) * (oneSecondNs * 2 ^ i) = oneSecondNs * 2 ^ (i + 1) from by ring]
    have h2 : (2 : Int) ^ (i + 1) ≤ 2 ^ 33 := by
      apply pow_le_pow_right₀ (by norm_num : (1 : Int) ≤ 2)
      omega
    have hle : oneSecondNs * 2 ^ (i + 1) ≤ oneSecondNs * 2 ^ 33 :=
      mul_le_mul_of_nonneg_left h2 (by norm_num [oneSecondNs])
    have hnonneg : (0 : Int) ≤ oneSecondNs * 2 ^ (i + 1) := by
      unfold oneSecondNs
      positivity
    apply wrap64_eq_self
    · have hz : -(2 ^ 63 : Int) ≤ 0 := by norm_num
      linarith
    · calc oneSecondNs * 2 ^ (i + 1) ≤ oneSecondNs * 2 ^ 33 := hle
        _ < 2 ^ 63 := by norm_num [oneSecondNs]

/-- C3 counterexample.  On a transport where every declare-and-start
cycle fails, the sleep before retry attempt 35 is the 34-times-doubled
`time.Duration`, which has overflowed `int64`: it is negative (so
`time.Sleep` returns immediately) and is not one second times 2^34 — the
claimed formula fails at k = 35. -/
theorem backoff_formula_fails_at_35 :
    backoffAt 34 = -1266874889709551616
    ∧ sleepsOf (startGoroutinesWithRetries (fun _ => some "channel closed") 35) =
        (List.range 35).map backoffAt
    ∧ backoffAt 34 ≠ oneSecondNs * 2 ^ 34
    ∧ backoffAt 34 < 0 := by
  refine ⟨?_, by decide, ?_, ?_⟩
  · rw [show backoffAt 34 = wrap64 (2 * backoffAt 33) from rfl,
      backoffAt_pow 33 (by norm_num)]
    decide
  · rw [show backoffAt 34 = wrap64 (2 * backoffAt 33) from rfl,
      backoffAt_pow 33 (by norm_num)]
    decide
  · rw [show backoffAt 34 = wrap64 (2 * backoffAt 33) from rfl,
      backoffAt_pow 33 (by norm_num)]
    decide

/-- C3 (amended).  In `startGoroutinesWithRetries`, the loop performs one
sleep before every attempt, doubling the slept `time.Duration` between
attempts in wrapping `int64` arithmetic, runs attempts with no limit on
their number, and exits exactly on the first attempt whose
declare-and-start cycle succeeds; the slept duration before attempt k
(1-based) equals one second times 2^(k-1) for every k ≤ 34, and from
k = 35 on the doubling has overflowed `int64` (the stored duration goes
negative), so the exact-power formula holds only up to the overflow. -/
theorem backoff_doubles_until_first_success (results : Nat → Option String) (n fuel : Nat)
    (h1 : ∀ j, j < n → results j ≠ none) (h2 : results n = none) (h3 : n + 1 ≤ fuel) :
    startGoroutinesWithRetries results fuel =
      (List.range (n + 1)).flatMap (fun i =>
        [RetryEvent.sleep (backoffAt i), RetryEvent.attempt (results i)])
    ∧ (∀ i, i ≤ 33 → backoffAt i = oneSecondNs * 2 ^ i) := by
  constructor
  · rw [startGoroutinesWithRetries,
      retryLoop_spec results n 0 oneSecondNs fuel (by simpa using h1) (by simpa using h2) h3]
    have hfun : (fun i => [RetryEvent.sleep (backoffFrom oneSecondNs i),
          RetryEvent.attempt (results (0 + i))]) =
        fun i => [RetryEvent.sleep (backoffAt i), RetryEvent.attempt (results i)] := by
      funext i
      rw [← backoffAt_eq, Nat.zero_add]
    rw [hfun]
  · intro i hi
    exact backoffAt_pow i hi

/-- C3 witness: with the first two attempts failing and the third
succeeding, the loop's trace is sleep 1s, attempt, sleep 2s, attempt,
sleep 4s, attempt-success, and stops. -/
theorem backoff_doubles_until_first_success_witness :
    startGoroutinesWithRetries (fun k => if k < 2 then some "e" else none) 3 =
      (List.range 3).flatMap (fun i =>
        [RetryEvent.sleep (backoffAt i),
         RetryEvent.attempt ((fun k => if k < 2 then some "e" else none) i)])
    ∧ (∀ i, i ≤ 33 → backoffAt i = oneSecondNs * 2 ^ i) :=
  backoff_doubles_until_first_success (fun k => if k < 2 then some "e" else none) 2 3
    (by decide) (by decide) (by decide)

end GoRabbitMQ
